import Mathlib

/-!
Shallow embedding of `src/Main.py` (BreezeEngine): the scene/sprite model and
the selection-and-drag interaction controller of class `FlamingEngine`.

Modelling conventions:
* `uuid.uuid4()` (line 13) mints a process-unique identifier; it is modelled
  as fresh-id allocation from a counter `nextId` carried by the engine state.
* The Python dict `self.sprites` preserves insertion order and `render`
  iterates it in that order (lines 381-384), so the scene is a `List Sprite`
  in insertion order, which is also the draw order (stacking order on the
  canvas, bottom to top).
* `self.selected_sprite` holds a reference to a sprite object; it is modelled
  as `Option Nat` (the selected sprite's id), resolved against the scene list.
* `tkinter.Canvas.find_overlapping` enumerates canvas items in stacking order
  from lowest (first drawn) to highest; the item lookup loop of
  `on_canvas_click` (lines 245-250) breaks at the first item tagged "sprite",
  so it is modelled as `List.find?` over the scene list in draw order, with
  the hit region of a sprite taken to be its bounding box as in
  `Sprite.contains_point` (lines 59-61).
* `ImageTk.PhotoImage` references are modelled as opaque handles
  (`Option Nat`); duplicating copies the handle, never the pixel data.
* An uncaught Python exception escaping an event handler is a fault; a
  handler that can fault is embedded as returning `Option` state, `none`
  meaning the fault.
-/

/-- Embeds class `Sprite` (Main.py lines 10-26), minus the widget-toolkit
fields (`engine` back-pointer, `canvas_id`). `texture` is an opaque handle to
decoded image data. -/
structure Sprite where
  id : Nat
  name : String
  x : Int
  y : Int
  texture : Option Nat
  color : String
  width : Int
  height : Int
  draggable : Bool
  is_dragging : Bool
  drag_offset_x : Int
  drag_offset_y : Int
  script : Option String
  deriving DecidableEq

/-- Embeds `Sprite.__init__` (lines 11-26): field defaults, with the fresh id
passed in explicitly (`uuid.uuid4()` modelled as fresh-id minting). -/
def Sprite.init (freshId : Nat) (name : String) (x y : Int) : Sprite :=
  { id := freshId
    name := name
    x := x
    y := y
    texture := none
    color := "white"
    width := 50
    height := 50
    draggable := true
    is_dragging := false
    drag_offset_x := 0
    drag_offset_y := 0
    script := none }

/-- Embeds `Sprite.contains_point` (lines 59-61). -/
def Sprite.contains_point (s : Sprite) (px py : Int) : Bool :=
  s.x ≤ px && px ≤ s.x + s.width && s.y ≤ py && py ≤ s.y + s.height

/-- Embeds `Sprite.start_drag` (lines 63-67). -/
def Sprite.start_drag (s : Sprite) (px py : Int) : Sprite :=
  if s.draggable then
    { s with is_dragging := true
             drag_offset_x := px - s.x
             drag_offset_y := py - s.y }
  else s

/-- Embeds `Sprite.update_drag` (lines 69-72). -/
def Sprite.update_drag (s : Sprite) (px py : Int) : Sprite :=
  if s.is_dragging then
    { s with x := px - s.drag_offset_x, y := py - s.drag_offset_y }
  else s

/-- Embeds `Sprite.end_drag` (lines 74-75). -/
def Sprite.end_drag (s : Sprite) : Sprite :=
  { s with is_dragging := false }

/-- Embeds `Sprite.duplicate` (lines 77-85): a fresh sprite named `name + "_copy"`
at `(x+20, y+20)`, copying color, width, height, draggable, and (when
present) the texture reference. `script`, `is_dragging` and the drag offsets
are NOT copied: they keep the `Sprite.__init__` defaults. -/
def Sprite.duplicate (s : Sprite) (freshId : Nat) : Sprite :=
  let base := Sprite.init freshId (s.name ++ "_copy") (s.x + 20) (s.y + 20)
  let base := { base with color := s.color
                          width := s.width
                          height := s.height
                          draggable := s.draggable }
  match s.texture with
  | some t => { base with texture := some t }
  | none => base

/-- Embeds `Sprite.add_script` (lines 87-88). -/
def Sprite.add_script (s : Sprite) (content : String) : Sprite :=
  { s with script := some content }

/-- Embeds the model-relevant state of class `FlamingEngine`
(lines 90-99): the sprite mapping in insertion order, the selection, and the
fresh-id counter standing for the uuid generator. -/
structure FlamingEngine where
  sprites : List Sprite
  selected : Option Nat
  nextId : Nat
  deriving DecidableEq

/-- Embeds `FlamingEngine.create_sprite` (lines 169-173): construct, register under
its id (dict insertion of a fresh key appends in iteration order). -/
def FlamingEngine.create_sprite (e : FlamingEngine) (name : String) (x y : Int) :
    FlamingEngine × Nat :=
  let s := Sprite.init e.nextId name x y
  ({ e with sprites := e.sprites ++ [s], nextId := e.nextId + 1 }, s.id)

/-- Deletion of the dict entry keyed by `i` (`del self.sprites[sprite.id]`,
line 326): removes the first (with well-formed ids, the only) sprite whose
id is `i`. -/
def removeId (l : List Sprite) (i : Nat) : List Sprite :=
  match l with
  | [] => []
  | s :: t => if s.id = i then t else s :: removeId t i

/-- Embeds `sprite.id in self.sprites` (line 325). -/
def FlamingEngine.hasId (e : FlamingEngine) (i : Nat) : Bool :=
  e.sprites.any (fun s => s.id == i)

/-- Embeds `FlamingEngine.remove_sprite` (lines 323-329): no-op on `None`; when the
sprite's id is a live key, deletes that entry and unconditionally clears the
selection. -/
def FlamingEngine.remove_sprite (e : FlamingEngine) (sp : Option Sprite) :
    FlamingEngine :=
  match sp with
  | none => e
  | some s =>
      if e.hasId s.id then
        { e with sprites := removeId e.sprites s.id, selected := none }
      else e

/-- Embeds `FlamingEngine.duplicate_sprite` (lines 317-321): no-op on `None`;
otherwise registers `sprite.duplicate()` under its fresh id (dict insertion
of a fresh key appends). -/
def FlamingEngine.duplicate_sprite (e : FlamingEngine) (sp : Option Sprite) :
    FlamingEngine :=
  match sp with
  | none => e
  | some s =>
      { e with sprites := e.sprites ++ [s.duplicate e.nextId]
               nextId := e.nextId + 1 }

/-- The sprite lookup loop of `on_canvas_click` / `on_right_click`
(lines 241-250): `find_overlapping` yields canvas items in stacking order,
lowest first; stacking order equals draw order equals scene-list order; the
loop breaks at the first sprite item, so the hit is the first sprite in draw
order whose bounding box contains the point. -/
def hit_test (l : List Sprite) (px py : Int) : Option Sprite :=
  l.find? (fun s => s.contains_point px py)

/-- Embeds `FlamingEngine.on_canvas_click` (lines 239-258): on a hit, select the
sprite and call `start_drag` on it (an in-place mutation of the scene entry);
on no hit, do nothing. -/
def FlamingEngine.on_canvas_click (e : FlamingEngine) (px py : Int) :
    FlamingEngine :=
  match hit_test e.sprites px py with
  | none => e
  | some sp =>
      { e with selected := some sp.id
               sprites := e.sprites.map fun t =>
                 if t.id = sp.id then t.start_drag px py else t }

/-- Embeds `FlamingEngine.on_canvas_drag` (lines 277-284, the `B1-Motion` handler):
guarded no-op when nothing is selected; otherwise `update_drag` mutates the
selected sprite in place. -/
def FlamingEngine.on_canvas_drag (e : FlamingEngine) (px py : Int) :
    FlamingEngine :=
  match e.selected with
  | none => e
  | some i =>
      { e with sprites := e.sprites.map fun t =>
          if t.id = i then t.update_drag px py else t }

/-- Embeds `FlamingEngine.on_canvas_release` (lines 282-284). -/
def FlamingEngine.on_canvas_release (e : FlamingEngine) : FlamingEngine :=
  match e.selected with
  | none => e
  | some i =>
      { e with sprites := e.sprites.map fun t =>
          if t.id = i then t.end_drag else t }

/-- The body of `on_sprite_select` after the item is extracted
(lines 233-237): `self.selected_sprite = self.sprites.get(sprite_id)` may
store `None` when the id is stale. -/
def FlamingEngine.on_sprite_select (e : FlamingEngine) (i : Nat) :
    FlamingEngine :=
  { e with selected := if e.hasId i then some i else none }

/-- Embeds `FlamingEngine.on_sprite_select` as the raw `<<TreeviewSelect>>` handler
(lines 233-237): `item = self.scene_tree.selection()[0]` indexes the tree's
current selection tuple; on an empty tuple this raises an uncaught
`IndexError` (modelled as `none`, a fault). -/
def FlamingEngine.on_sprite_select_event (e : FlamingEngine)
    (treeSelection : List Nat) : Option FlamingEngine :=
  match treeSelection with
  | [] => none
  | i :: _ => some (e.on_sprite_select i)

/-- Embeds `self.selected_sprite` as passed to the context-menu commands
(lines 156-167): the sprite object the selection refers to, `None` when
nothing is selected or the id is stale. -/
def FlamingEngine.resolveSelected (e : FlamingEngine) : Option Sprite :=
  match e.selected with
  | none => none
  | some i => e.sprites.find? (fun s => s.id == i)

/-- Setting the dynamic attribute `"x"` on the selected sprite, the
`setattr` of `update_sprite_property` (lines 228-231) specialised to the
inspector's x field. Guarded no-op when nothing is selected. -/
def FlamingEngine.update_sprite_property_x (e : FlamingEngine) (v : Int) :
    FlamingEngine :=
  match e.selected with
  | none => e
  | some i =>
      { e with sprites := e.sprites.map fun t =>
          if t.id = i then { t with x := v } else t }

def isPyDigit (c : Char) : Bool :=
  '0' ≤ c && c ≤ '9'

def isPySpace (c : Char) : Bool :=
  c = ' ' || c = '\t' || c = '\n' || c = '\r' || c = '\x0b' || c = '\x0c'

/-- Python `str.strip()` of the whitespace `int()` tolerates. -/
def pyStrip (l : List Char) : List Char :=
  ((l.dropWhile isPySpace).reverse.dropWhile isPySpace).reverse

def digitsVal (l : List Char) : Option Nat :=
  if l = [] then none
  else if l.all isPyDigit then
    some (l.foldl (fun a c => a * 10 + (c.toNat - 48)) 0)
  else none

/-- Python `int(str)` on entry text: optional surrounding whitespace, an
optional sign, then decimal digits; anything else raises `ValueError`
(modelled as `none`). -/
def pyInt (s : String) : Option Int :=
  match pyStrip s.toList with
  | '-' :: rest => (digitsVal rest).map (fun n => -(n : Int))
  | '+' :: rest => (digitsVal rest).map (fun n => (n : Int))
  | l => (digitsVal l).map (fun n => (n : Int))

/-- The inspector x-entry `FocusOut` binding (line 212):
`self.update_sprite_property("x", int(x_entry.get()))`. `int(...)` is
evaluated before the setter is entered; a non-integer entry raises an
uncaught `ValueError` inside the event callback (`none`, a fault), and the
setter never runs. -/
def FlamingEngine.x_entry_focus_out (e : FlamingEngine) (value : String) :
    Option FlamingEngine :=
  match pyInt value with
  | none => none
  | some v => some (e.update_sprite_property_x v)

/-- Embeds `FlamingEngine.__init__` model state (lines 93-149): empty scene, no
selection, then `create_sprite("TestObject", 100, 100)` whose color is set
to `"#3498db"`. -/
def engineInit : FlamingEngine :=
  let e0 : FlamingEngine := { sprites := [], selected := none, nextId := 0 }
  let p := e0.create_sprite "TestObject" 100 100
  { p.1 with sprites := p.1.sprites.map fun t =>
      if t.id = p.2 then { t with color := "#3498db" } else t }

/-- The model-level operations a user can drive through the UI: create a
sprite, duplicate/remove the selected sprite via the context menu
(lines 154-167), select via the scene tree, and the canvas press/move/release
handlers. -/
inductive Op where
  | create (name : String) (x y : Int)
  | duplicateSelected
  | removeSelected
  | select (i : Nat)
  | click (px py : Int)
  | drag (px py : Int)
  | release
  deriving DecidableEq

/-- One controller step: dispatch of an `Op` to the corresponding
`FlamingEngine` handler, with the context-menu commands applied to the
resolved `self.selected_sprite`. -/
def step (e : FlamingEngine) : Op → FlamingEngine
  | .create n x y => (e.create_sprite n x y).1
  | .duplicateSelected => e.duplicate_sprite e.resolveSelected
  | .removeSelected => e.remove_sprite e.resolveSelected
  | .select i => e.on_sprite_select i
  | .click px py => e.on_canvas_click px py
  | .drag px py => e.on_canvas_drag px py
  | .release => e.on_canvas_release

/-- Run a sequence of operations from a state. -/
def runOps (e : FlamingEngine) (ops : List Op) : FlamingEngine :=
  ops.foldl step e

/-- The ids minted by the allocation events (create, successful duplicate)
of an operation sequence, in order. -/
def allocIds (e : FlamingEngine) : List Op → List Nat
  | [] => []
  | op :: ops =>
      (match op with
       | .create _ _ _ => [e.nextId]
       | .duplicateSelected =>
           match e.resolveSelected with
           | some _ => [e.nextId]
           | none => []
       | _ => []) ++ allocIds (step e op) ops

/-! ### Claim C1: hit-testing and draw order -/

/-- The tie-break the spec prescribes, stated from the spec's words: the
LAST sprite in draw order whose box contains the point (topmost wins). Kept
separate from `hit_test`, which embeds the source. -/
def hit_test_topmost (l : List Sprite) (px py : Int) : Option Sprite :=
  l.reverse.find? (fun s => s.contains_point px py)

def spriteA : Sprite := Sprite.init 0 "A" 0 0

def spriteB : Sprite := Sprite.init 1 "B" 10 10

/-- C1 counterexample: two overlapping sprites, A drawn first and then B;
the point (20, 20) lies in both boxes, yet `hit_test` returns A, the FIRST
sprite in draw order, while the claim demands the last (topmost, B). -/
theorem hit_test_returns_bottommost_counterexample :
    spriteA.contains_point 20 20 = true ∧
    spriteB.contains_point 20 20 = true ∧
    hit_test [spriteA, spriteB] 20 20 = some spriteA ∧
    hit_test_topmost [spriteA, spriteB] 20 20 = some spriteB ∧
    spriteA.id ≠ spriteB.id := by
  refine ⟨rfl, rfl, rfl, rfl, by decide⟩

/-- C1 amended: `hit_test` returns the first sprite in draw order whose
bounding box contains the point — equivalently the head of the draw-order
list filtered to the boxes containing the point. Hence a point inside no box
yields `none`, a point inside exactly one box yields that sprite, and a
point inside several boxes yields the bottom-most (first-drawn) one, not the
topmost. -/
theorem hit_test_eq_head_of_containing (l : List Sprite) (px py : Int) :
    hit_test l px py = (l.filter (fun s => s.contains_point px py)).head? := by
  induction l with
  | nil => rfl
  | cons s t ih =>
      unfold hit_test at ih ⊢
      cases h : s.contains_point px py with
      | true =>
          rw [List.find?_cons_of_pos (p := fun u : Sprite => u.contains_point px py) t h,
            List.filter_cons_of_pos (p := fun u : Sprite => u.contains_point px py) h]
          rfl
      | false =>
          have h' : ¬ ((fun u => u.contains_point px py) s = true) := by
            simp [h]
          rw [List.find?_cons_of_neg (p := fun u : Sprite => u.contains_point px py) t h',
            List.filter_cons_of_neg (p := fun u : Sprite => u.contains_point px py) h']
          exact ih

/-! ### Claim C4: drag offset algebra -/

/-- A whole drag after `start_drag`: the successive `B1-Motion` pointer
positions folded through `update_drag`. -/
def run_drag (s : Sprite) (moves : List (Int × Int)) : Sprite :=
  moves.foldl (fun t m => t.update_drag m.1 m.2) s

theorem update_drag_fields (s : Sprite) (px py : Int) :
    (s.update_drag px py).is_dragging = s.is_dragging ∧
    (s.update_drag px py).drag_offset_x = s.drag_offset_x ∧
    (s.update_drag px py).drag_offset_y = s.drag_offset_y := by
  unfold Sprite.update_drag
  split <;> exact ⟨rfl, rfl, rfl⟩

theorem run_drag_keeps_offsets (moves : List (Int × Int)) (s : Sprite)
    (h : s.is_dragging = true) :
    (run_drag s moves).is_dragging = true ∧
    (run_drag s moves).drag_offset_x = s.drag_offset_x ∧
    (run_drag s moves).drag_offset_y = s.drag_offset_y := by
  induction moves generalizing s with
  | nil => exact ⟨h, rfl, rfl⟩
  | cons m ms ih =>
      have hstep : run_drag s (m :: ms) = run_drag (s.update_drag m.1 m.2) ms := rfl
      have hf := update_drag_fields s m.1 m.2
      have hrest := ih (s.update_drag m.1 m.2) (by rw [hf.1]; exact h)
      rw [hstep]
      exact ⟨hrest.1, by rw [hrest.2.1, hf.2.1], by rw [hrest.2.2, hf.2.2]⟩

/-- C4: a draggable sprite at position S = (s.x, s.y), grabbed with the
pointer at P = (px, py) and then moved through any intermediate points to a
final pointer position Q = (qx, qy), ends at Q − (P − S); the offset
captured by `start_drag` is left untouched by every `update_drag`. -/
theorem drag_preserves_offset (s : Sprite) (hd : s.draggable = true)
    (px py : Int) (moves : List (Int × Int)) (qx qy : Int) :
    (run_drag (s.start_drag px py) (moves ++ [(qx, qy)])).x = qx - (px - s.x) ∧
    (run_drag (s.start_drag px py) (moves ++ [(qx, qy)])).y = qy - (py - s.y) ∧
    (run_drag (s.start_drag px py) (moves ++ [(qx, qy)])).drag_offset_x = px - s.x ∧
    (run_drag (s.start_drag px py) (moves ++ [(qx, qy)])).drag_offset_y = py - s.y := by
  have hstart : s.start_drag px py =
      { s with is_dragging := true
               drag_offset_x := px - s.x
               drag_offset_y := py - s.y } := by
    unfold Sprite.start_drag
    rw [if_pos hd]
  have hmid := run_drag_keeps_offsets moves (s.start_drag px py)
    (by rw [hstart])
  have happ : run_drag (s.start_drag px py) (moves ++ [(qx, qy)]) =
      (run_drag (s.start_drag px py) moves).update_drag qx qy := by
    unfold run_drag
    rw [List.foldl_append]
    rfl
  have hox : (run_drag (s.start_drag px py) moves).drag_offset_x = px - s.x := by
    rw [hmid.2.1, hstart]
  have hoy : (run_drag (s.start_drag px py) moves).drag_offset_y = py - s.y := by
    rw [hmid.2.2, hstart]
  have hu : (run_drag (s.start_drag px py) moves).update_drag qx qy =
      { run_drag (s.start_drag px py) moves with
          x := qx - (run_drag (s.start_drag px py) moves).drag_offset_x
          y := qy - (run_drag (s.start_drag px py) moves).drag_offset_y } := by
    unfold Sprite.update_drag
    rw [if_pos hmid.1]
  rw [happ, hu]
  exact ⟨by rw [hox], by rw [hoy], by rw [hox], by rw [hoy]⟩

/-- Witness for C4 at a concrete sprite and drag. -/
theorem drag_preserves_offset_witness :
    (Sprite.init 0 "A" 5 7).draggable = true ∧
    (run_drag ((Sprite.init 0 "A" 5 7).start_drag 30 40)
        ([(1, 2), (3, 4)] ++ [(100, 200)])).x = 100 - (30 - 5) ∧
    (run_drag ((Sprite.init 0 "A" 5 7).start_drag 30 40)
        ([(1, 2), (3, 4)] ++ [(100, 200)])).y = 200 - (40 - 7) :=
  ⟨rfl,
   (drag_preserves_offset (Sprite.init 0 "A" 5 7) rfl 30 40 [(1, 2), (3, 4)] 100 200).1,
   (drag_preserves_offset (Sprite.init 0 "A" 5 7) rfl 30 40 [(1, 2), (3, 4)] 100 200).2.1⟩

/-! ### Claim C10: primary press on empty canvas -/

/-- C10: a primary-button press at a point where the hit loop finds no
sprite leaves the whole engine state unchanged — selection, sprite set, and
every sprite field included. -/
theorem click_miss_is_noop (e : FlamingEngine) (px py : Int)
    (h : hit_test e.sprites px py = none) :
    e.on_canvas_click px py = e := by
  unfold FlamingEngine.on_canvas_click
  rw [h]

/-- Witness for C10: the initial engine (one 50×50 sprite at (100, 100))
and a click at (300, 300), inside no box. -/
theorem click_miss_is_noop_witness :
    hit_test engineInit.sprites 300 300 = none ∧
    engineInit.on_canvas_click 300 300 = engineInit :=
  ⟨by decide, click_miss_is_noop engineInit 300 300 (by decide)⟩

/-! ### Field lemmas for `Sprite` operations -/

theorem start_drag_fields (s : Sprite) (px py : Int) :
    (s.start_drag px py).id = s.id ∧
    (s.start_drag px py).is_dragging = (s.draggable || s.is_dragging) ∧
    (s.draggable = true →
      (s.start_drag px py).drag_offset_x = px - s.x ∧
      (s.start_drag px py).drag_offset_y = py - s.y) := by
  unfold Sprite.start_drag
  cases h : s.draggable <;> simp [h]

theorem update_drag_id (s : Sprite) (px py : Int) :
    (s.update_drag px py).id = s.id := by
  unfold Sprite.update_drag
  split <;> rfl

theorem end_drag_id (s : Sprite) : s.end_drag.id = s.id := rfl

theorem duplicate_fields (s : Sprite) (freshId : Nat) :
    (s.duplicate freshId).id = freshId ∧
    (s.duplicate freshId).name = s.name ++ "_copy" ∧
    (s.duplicate freshId).x = s.x + 20 ∧
    (s.duplicate freshId).y = s.y + 20 ∧
    (s.duplicate freshId).color = s.color ∧
    (s.duplicate freshId).width = s.width ∧
    (s.duplicate freshId).height = s.height ∧
    (s.duplicate freshId).draggable = s.draggable ∧
    (s.duplicate freshId).texture = s.texture ∧
    (s.duplicate freshId).script = none := by
  unfold Sprite.duplicate
  cases h : s.texture <;> simp [Sprite.init, h]

/-! ### Claim C2: duplication -/

def scriptedSprite : Sprite := (Sprite.init 0 "A" 0 0).add_script "move()"

/-- C2 counterexample: the claim says the duplicate's script text equals the
source's; `Sprite.duplicate` never copies `script` (lines 77-85 assign only
color, width, height, draggable, texture), so a scripted sprite's duplicate
has no script. -/
theorem duplicate_drops_script_counterexample :
    scriptedSprite.script = some "move()" ∧
    (scriptedSprite.duplicate 1).script = none ∧
    (scriptedSprite.duplicate 1).script ≠ scriptedSprite.script :=
  ⟨rfl, rfl, by decide⟩

/-- C2 amended: duplicating a live sprite appends exactly one new sprite
whose identity is fresh (distinct from the source and from every live
sprite), whose name is the source's plus `"_copy"`, whose position is the
source's offset by (+20, +20), whose color, size, draggable flag, and image
reference equal the source's (the texture handle is shared, not copied) —
but whose script is reset to `none`, NOT copied from the source. -/
theorem duplicate_sprite_spec (e : FlamingEngine) (sp : Sprite)
    (hm : sp ∈ e.sprites) (hinv : ∀ t ∈ e.sprites, t.id < e.nextId) :
    ∃ d, (e.duplicate_sprite (some sp)).sprites = e.sprites ++ [d] ∧
      d.id ≠ sp.id ∧ (∀ t ∈ e.sprites, t.id ≠ d.id) ∧
      d.name = sp.name ++ "_copy" ∧
      d.x = sp.x + 20 ∧ d.y = sp.y + 20 ∧
      d.color = sp.color ∧ d.width = sp.width ∧ d.height = sp.height ∧
      d.draggable = sp.draggable ∧ d.texture = sp.texture ∧
      d.script = none := by
  have hf := duplicate_fields sp e.nextId
  refine ⟨sp.duplicate e.nextId, rfl, ?_, ?_, hf.2.1, hf.2.2.1, hf.2.2.2.1,
    hf.2.2.2.2.1, hf.2.2.2.2.2.1, hf.2.2.2.2.2.2.1, hf.2.2.2.2.2.2.2.1,
    hf.2.2.2.2.2.2.2.2.1, hf.2.2.2.2.2.2.2.2.2⟩
  · rw [hf.1]
    exact (Nat.ne_of_lt (hinv sp hm)).symm
  · intro t ht
    rw [hf.1]
    exact Nat.ne_of_lt (hinv t ht)

def testSprite : Sprite :=
  { Sprite.init 0 "TestObject" 100 100 with color := "#3498db" }

/-- Witness for C2 at the initial engine and its test sprite. -/
theorem duplicate_sprite_spec_witness :
    ∃ d, (engineInit.duplicate_sprite (some testSprite)).sprites =
        engineInit.sprites ++ [d] ∧
      d.id ≠ testSprite.id ∧ (∀ t ∈ engineInit.sprites, t.id ≠ d.id) ∧
      d.name = testSprite.name ++ "_copy" ∧
      d.x = testSprite.x + 20 ∧ d.y = testSprite.y + 20 ∧
      d.color = testSprite.color ∧ d.width = testSprite.width ∧
      d.height = testSprite.height ∧ d.draggable = testSprite.draggable ∧
      d.texture = testSprite.texture ∧ d.script = none :=
  duplicate_sprite_spec engineInit testSprite (by decide) (by decide)

/-! ### Claim C3: non-integer input to the x field -/

def engineSel : FlamingEngine := { engineInit with selected := some 0 }

/-- C3: with a sprite selected, committing the non-integer text "abc" in the
inspector's x entry faults — `int("abc")` raises an uncaught `ValueError`
before `update_sprite_property` ever runs (`none`, not a recovered
ValidationError no-op). The selected sprite's x is indeed left unchanged,
but only because the handler dies, not because the error is recovered. -/
theorem x_entry_non_integer_faults :
    engineSel.selected = some 0 ∧
    pyInt "abc" = none ∧
    engineSel.x_entry_focus_out "abc" = none ∧
    engineSel.sprites.map (fun s => s.x) = [100] :=
  ⟨rfl, rfl, rfl, rfl⟩

/-! ### Claim C7: totality of the event handlers -/

/-- C7: the `<<TreeviewSelect>>` handler is NOT total — fired with an empty
tree selection (as happens when the selection is cleared, e.g. by
`update_scene_tree` rebuilding the tree), `selection()[0]` raises an
uncaught `IndexError` (a fault, `none`), where the claim demands a no-op. -/
theorem tree_select_empty_faults :
    engineInit.on_sprite_select_event [] = none := rfl

/-! ### Lemmas about `removeId` -/

theorem mem_of_mem_removeId (l : List Sprite) (i : Nat) (t : Sprite)
    (h : t ∈ removeId l i) : t ∈ l := by
  induction l with
  | nil => exact absurd h (List.not_mem_nil t)
  | cons s r ih =>
      unfold removeId at h
      by_cases hs : s.id = i
      · rw [if_pos hs] at h
        exact List.mem_cons_of_mem s h
      · rw [if_neg hs] at h
        rcases List.mem_cons.mp h with h1 | h2
        · exact h1 ▸ List.mem_cons_self s r
        · exact List.mem_cons_of_mem s (ih h2)

theorem mem_removeId_of_ne (l : List Sprite) (i : Nat) (t : Sprite)
    (hm : t ∈ l) (hne : t.id ≠ i) : t ∈ removeId l i := by
  induction l with
  | nil => exact absurd hm (List.not_mem_nil t)
  | cons s r ih =>
      unfold removeId
      rcases List.mem_cons.mp hm with h1 | h2
      · subst h1
        rw [if_neg hne]
        exact List.mem_cons_self t (removeId r i)
      · by_cases hs : s.id = i
        · rw [if_pos hs]
          exact h2
        · rw [if_neg hs]
          exact List.mem_cons_of_mem s (ih h2)

/-! ### Claim C6: press on a hit sprite, selection vs drag -/

def rigidSprite : Sprite := { Sprite.init 0 "Rigid" 0 0 with draggable := false }

def engineRigid : FlamingEngine :=
  { sprites := [rigidSprite], selected := none, nextId := 1 }

/-- C6 counterexample: a primary press on a hit sprite whose draggable flag
is false still selects it — `on_canvas_click` assigns `selected_sprite`
before calling `start_drag` and without consulting `draggable`; only the
drag itself is suppressed. The claim says such a sprite is neither selected
nor dragged. -/
theorem click_selects_non_draggable_counterexample :
    rigidSprite.draggable = false ∧
    hit_test engineRigid.sprites 10 10 = some rigidSprite ∧
    (engineRigid.on_canvas_click 10 10).selected = some rigidSprite.id ∧
    (engineRigid.on_canvas_click 10 10).sprites.map (fun s => s.is_dragging) =
      [false] :=
  ⟨rfl, rfl, rfl, rfl⟩

/-- C6 amended: on a primary press where hit-testing finds sprite `sp`, the
sprite always becomes selected, draggable or not; a drag starts (dragging
flag set, offset captured) only if its draggable flag is set, a
non-draggable sprite's dragging state being left as it was. -/
theorem click_hit_selects_drag_iff_draggable (e : FlamingEngine)
    (px py : Int) (sp : Sprite) (hf : hit_test e.sprites px py = some sp) :
    (e.on_canvas_click px py).selected = some sp.id ∧
    ∃ t ∈ (e.on_canvas_click px py).sprites, t.id = sp.id ∧
      t.is_dragging = (sp.draggable || sp.is_dragging) ∧
      (sp.draggable = true →
        t.drag_offset_x = px - sp.x ∧ t.drag_offset_y = py - sp.y) := by
  have hmem : sp ∈ e.sprites := List.mem_of_find?_eq_some hf
  have hclick : e.on_canvas_click px py =
      { e with selected := some sp.id
               sprites := e.sprites.map fun t =>
                 if t.id = sp.id then t.start_drag px py else t } := by
    unfold FlamingEngine.on_canvas_click
    rw [hf]
  have hsf := start_drag_fields sp px py
  refine ⟨by rw [hclick], sp.start_drag px py, ?_, hsf.1, hsf.2.1, hsf.2.2⟩
  rw [hclick]
  have : sp.start_drag px py =
      (fun t => if t.id = sp.id then t.start_drag px py else t) sp := by
    simp
  rw [this]
  exact List.mem_map_of_mem _ hmem

/-- Witness for C6 at a concrete engine whose only sprite is not
draggable. -/
theorem click_hit_selects_drag_iff_draggable_witness :
    (engineRigid.on_canvas_click 10 10).selected = some rigidSprite.id ∧
    ∃ t ∈ (engineRigid.on_canvas_click 10 10).sprites, t.id = rigidSprite.id ∧
      t.is_dragging = (rigidSprite.draggable || rigidSprite.is_dragging) ∧
      (rigidSprite.draggable = true →
        t.drag_offset_x = 10 - rigidSprite.x ∧
        t.drag_offset_y = 10 - rigidSprite.y) :=
  click_hit_selects_drag_iff_draggable engineRigid 10 10 rigidSprite (by rfl)

/-! ### Claim C9: removal and the selection -/

def spriteFirst : Sprite := Sprite.init 0 "A" 0 0

def spriteSecond : Sprite := Sprite.init 1 "B" 200 200

def engineTwo : FlamingEngine :=
  { sprites := [spriteFirst, spriteSecond], selected := some 0, nextId := 2 }

/-- C9 counterexample: with sprite A (id 0) selected, removing sprite B
(id 1, not the selection target) still clears the selection —
`remove_sprite` sets `selected_sprite = None` unconditionally on every
successful removal. The claim says the selection should be left unchanged
(still A). -/
theorem remove_unselected_clears_selection_counterexample :
    engineTwo.selected = some 0 ∧
    spriteSecond.id ≠ 0 ∧
    (engineTwo.remove_sprite (some spriteSecond)).sprites.map (fun s => s.id) =
      [0] ∧
    (engineTwo.remove_sprite (some spriteSecond)).selected = none :=
  ⟨rfl, by decide, rfl, rfl⟩

/-- C9 amended: removing a live sprite removes only that sprite — every
other live sprite survives and nothing is added — but clears the current
selection unconditionally, whether or not the removed sprite was the
selection target. -/
theorem remove_sprite_frame (e : FlamingEngine) (sp : Sprite)
    (hlive : e.hasId sp.id = true) :
    (e.remove_sprite (some sp)).selected = none ∧
    (∀ t ∈ e.sprites, t.id ≠ sp.id → t ∈ (e.remove_sprite (some sp)).sprites) ∧
    (∀ t ∈ (e.remove_sprite (some sp)).sprites, t ∈ e.sprites) := by
  have hrm : e.remove_sprite (some sp) =
      { e with sprites := removeId e.sprites sp.id, selected := none } := by
    have hred : e.remove_sprite (some sp) =
        if e.hasId sp.id = true then
          { e with sprites := removeId e.sprites sp.id, selected := none }
        else e := rfl
    rw [hred, if_pos hlive]
  rw [hrm]
  exact ⟨rfl,
    fun t ht hne => mem_removeId_of_ne e.sprites sp.id t ht hne,
    fun t ht => mem_of_mem_removeId e.sprites sp.id t ht⟩

/-- Witness for C9 at the two-sprite engine. -/
theorem remove_sprite_frame_witness :
    (engineTwo.remove_sprite (some spriteSecond)).selected = none ∧
    (∀ t ∈ engineTwo.sprites, t.id ≠ spriteSecond.id →
      t ∈ (engineTwo.remove_sprite (some spriteSecond)).sprites) ∧
    (∀ t ∈ (engineTwo.remove_sprite (some spriteSecond)).sprites,
      t ∈ engineTwo.sprites) :=
  remove_sprite_frame engineTwo spriteSecond (by rfl)

/-! ### The scene/selection invariant over operation sequences -/

/-- The invariant the engine maintains: the selection, when set, names a
live sprite; live sprites have pairwise distinct ids; and every live id is
below the fresh-id counter. -/
def EngineInv (e : FlamingEngine) : Prop :=
  (∀ i, e.selected = some i → e.hasId i = true) ∧
  (e.sprites.map (fun s => s.id)).Nodup ∧
  (∀ t ∈ e.sprites, t.id < e.nextId)

theorem map_ids_eq (l : List Sprite) (g : Sprite → Sprite)
    (hg : ∀ t, (g t).id = t.id) :
    (l.map g).map (fun s => s.id) = l.map (fun s => s.id) := by
  induction l with
  | nil => rfl
  | cons s r ih => simp only [List.map_cons, hg, ih]

theorem any_id_map (l : List Sprite) (g : Sprite → Sprite)
    (hg : ∀ t, (g t).id = t.id) (i : Nat) :
    (l.map g).any (fun s => s.id == i) = l.any (fun s => s.id == i) := by
  induction l with
  | nil => rfl
  | cons s r ih => simp only [List.map_cons, List.any_cons, hg, ih]

theorem removeId_sublist (l : List Sprite) (i : Nat) :
    (removeId l i).Sublist l := by
  induction l with
  | nil => exact List.Sublist.refl []
  | cons s r ih =>
      unfold removeId
      by_cases hs : s.id = i
      · rw [if_pos hs]
        exact List.sublist_cons_self s r
      · rw [if_neg hs]
        exact ih.cons₂ s

theorem startDragAt_id (px py : Int) (j : Nat) (t : Sprite) :
    ((fun u : Sprite => if u.id = j then u.start_drag px py else u) t).id
      = t.id := by
  show (if t.id = j then t.start_drag px py else t).id = t.id
  by_cases ht : t.id = j
  · rw [if_pos ht, (start_drag_fields t px py).1]
  · rw [if_neg ht]

theorem updateDragAt_id (px py : Int) (j : Nat) (t : Sprite) :
    ((fun u : Sprite => if u.id = j then u.update_drag px py else u) t).id
      = t.id := by
  show (if t.id = j then t.update_drag px py else t).id = t.id
  by_cases ht : t.id = j
  · rw [if_pos ht, update_drag_id t px py]
  · rw [if_neg ht]

theorem endDragAt_id (j : Nat) (t : Sprite) :
    ((fun u : Sprite => if u.id = j then u.end_drag else u) t).id = t.id := by
  show (if t.id = j then t.end_drag else t).id = t.id
  by_cases ht : t.id = j
  · rw [if_pos ht, end_drag_id t]
  · rw [if_neg ht]

/-- Appending a sprite carrying the fresh id and bumping the counter — the
common shape of `create_sprite` and a successful `duplicate_sprite` —
preserves the invariant. -/
theorem inv_append_fresh (e : FlamingEngine) (s : Sprite)
    (hid : s.id = e.nextId) (h : EngineInv e) :
    EngineInv { e with sprites := e.sprites ++ [s], nextId := e.nextId + 1 } := by
  obtain ⟨hsel, hnd, hlt⟩ := h
  refine ⟨?_, ?_, ?_⟩
  · intro i hi
    have hi' : e.selected = some i := hi
    have hbase := hsel i hi'
    show (e.sprites ++ [s]).any (fun t => t.id == i) = true
    rw [List.any_append]
    have hbase' : e.sprites.any (fun t => t.id == i) = true := hbase
    rw [hbase']
    rfl
  · show ((e.sprites ++ [s]).map (fun t => t.id)).Nodup
    rw [List.map_append]
    refine List.Nodup.append hnd (List.nodup_singleton _) ?_
    intro a ha hb
    rcases List.mem_map.mp ha with ⟨t, ht, rfl⟩
    have hb' : t.id = s.id := by
      simpa using hb
    exact Nat.ne_of_lt (hlt t ht) (hb'.trans hid)
  · intro t ht
    rcases List.mem_append.mp ht with h1 | h2
    · exact Nat.lt_succ_of_lt (hlt t h1)
    · rw [List.mem_singleton.mp h2, hid]
      exact Nat.lt_succ_self _

theorem resolveSelected_of_selected (e : FlamingEngine) (i : Nat)
    (h : e.selected = some i) :
    e.resolveSelected = e.sprites.find? (fun s => s.id == i) := by
  unfold FlamingEngine.resolveSelected
  rw [h]

theorem resolveSelected_of_none (e : FlamingEngine)
    (h : e.selected = none) : e.resolveSelected = none := by
  unfold FlamingEngine.resolveSelected
  rw [h]

theorem duplicate_step_of_some (e : FlamingEngine) (sp : Sprite)
    (h : e.resolveSelected = some sp) :
    step e .duplicateSelected =
      { e with sprites := e.sprites ++ [sp.duplicate e.nextId]
               nextId := e.nextId + 1 } := by
  show e.duplicate_sprite e.resolveSelected = _
  rw [h]
  rfl

theorem remove_step_of_some (e : FlamingEngine) (sp : Sprite)
    (h : e.resolveSelected = some sp) :
    step e .removeSelected = e.remove_sprite (some sp) := by
  show e.remove_sprite e.resolveSelected = _
  rw [h]

theorem remove_sprite_of_live (e : FlamingEngine) (sp : Sprite)
    (hl : e.hasId sp.id = true) :
    e.remove_sprite (some sp) =
      { e with sprites := removeId e.sprites sp.id, selected := none } := by
  have h0 : e.remove_sprite (some sp) =
      if e.hasId sp.id = true then
        { e with sprites := removeId e.sprites sp.id, selected := none }
      else e := rfl
  rw [h0, if_pos hl]

theorem remove_sprite_of_dead (e : FlamingEngine) (sp : Sprite)
    (hl : ¬ e.hasId sp.id = true) : e.remove_sprite (some sp) = e := by
  have h0 : e.remove_sprite (some sp) =
      if e.hasId sp.id = true then
        { e with sprites := removeId e.sprites sp.id, selected := none }
      else e := rfl
  rw [h0, if_neg hl]

theorem click_step_of_hit (e : FlamingEngine) (px py : Int) (sp : Sprite)
    (h : hit_test e.sprites px py = some sp) :
    e.on_canvas_click px py =
      { e with selected := some sp.id
               sprites := e.sprites.map fun t =>
                 if t.id = sp.id then t.start_drag px py else t } := by
  unfold FlamingEngine.on_canvas_click
  rw [h]

theorem click_step_of_miss (e : FlamingEngine) (px py : Int)
    (h : hit_test e.sprites px py = none) :
    e.on_canvas_click px py = e := by
  unfold FlamingEngine.on_canvas_click
  rw [h]

/-- Every operation preserves the invariant. -/
theorem step_preserves_inv (e : FlamingEngine) (op : Op)
    (h : EngineInv e) : EngineInv (step e op) := by
  obtain ⟨hsel, hnd, hlt⟩ := h
  cases op with
  | create n x y =>
      exact inv_append_fresh e (Sprite.init e.nextId n x y) rfl ⟨hsel, hnd, hlt⟩
  | duplicateSelected =>
      cases hres : e.resolveSelected with
      | none =>
          have hid : step e .duplicateSelected = e := by
            show e.duplicate_sprite e.resolveSelected = e
            rw [hres]
            rfl
          rw [hid]
          exact ⟨hsel, hnd, hlt⟩
      | some sp =>
          rw [duplicate_step_of_some e sp hres]
          exact inv_append_fresh e (sp.duplicate e.nextId)
            (duplicate_fields sp e.nextId).1 ⟨hsel, hnd, hlt⟩
  | removeSelected =>
      cases hres : e.resolveSelected with
      | none =>
          have hid : step e .removeSelected = e := by
            show e.remove_sprite e.resolveSelected = e
            rw [hres]
            rfl
          rw [hid]
          exact ⟨hsel, hnd, hlt⟩
      | some sp =>
          rw [remove_step_of_some e sp hres]
          by_cases hl : e.hasId sp.id = true
          · rw [remove_sprite_of_live e sp hl]
            refine ⟨?_, ?_, ?_⟩
            · intro i hi
              exact nomatch hi
            · show ((removeId e.sprites sp.id).map (fun s => s.id)).Nodup
              exact hnd.sublist ((removeId_sublist e.sprites sp.id).map _)
            · intro t ht
              exact hlt t (mem_of_mem_removeId e.sprites sp.id t ht)
          · rw [remove_sprite_of_dead e sp hl]
            exact ⟨hsel, hnd, hlt⟩
  | select i =>
      refine ⟨?_, hnd, hlt⟩
      intro j hj
      have hj' : (if e.hasId i = true then some i else none) = some j := hj
      show e.hasId j = true
      by_cases hi : e.hasId i = true
      · rw [if_pos hi] at hj'
        injection hj' with hij
        rw [← hij]
        exact hi
      · rw [if_neg hi] at hj'
        exact nomatch hj'
  | click px py =>
      cases hh : hit_test e.sprites px py with
      | none =>
          have hid : step e (.click px py) = e :=
            click_step_of_miss e px py hh
          rw [hid]
          exact ⟨hsel, hnd, hlt⟩
      | some sp =>
          have hid : step e (.click px py) =
              { e with selected := some sp.id
                       sprites := e.sprites.map fun t =>
                         if t.id = sp.id then t.start_drag px py else t } :=
            click_step_of_hit e px py sp hh
          rw [hid]
          have hmem : sp ∈ e.sprites := List.mem_of_find?_eq_some hh
          refine ⟨?_, ?_, ?_⟩
          · intro j hj
            have hj' : some sp.id = some j := hj
            injection hj' with hij
            show (e.sprites.map fun t =>
              if t.id = sp.id then t.start_drag px py else t).any
                (fun s => s.id == j) = true
            rw [any_id_map e.sprites _ (startDragAt_id px py sp.id) j]
            rw [List.any_eq_true]
            exact ⟨sp, hmem, by rw [← hij]; simp⟩
          · show ((e.sprites.map fun t =>
              if t.id = sp.id then t.start_drag px py else t).map
                (fun s => s.id)).Nodup
            rw [map_ids_eq e.sprites _ (startDragAt_id px py sp.id)]
            exact hnd
          · intro t ht
            rcases List.mem_map.mp ht with ⟨u, hu, rfl⟩
            show ((fun t =>
              if t.id = sp.id then t.start_drag px py else t) u).id < e.nextId
            rw [startDragAt_id px py sp.id u]
            exact hlt u hu
  | drag px py =>
      cases hs : e.selected with
      | none =>
          have hid : step e (.drag px py) = e := by
            show e.on_canvas_drag px py = e
            unfold FlamingEngine.on_canvas_drag
            rw [hs]
          rw [hid]
          exact ⟨hsel, hnd, hlt⟩
      | some i =>
          have hid : step e (.drag px py) =
              { e with sprites := e.sprites.map fun t =>
                  if t.id = i then t.update_drag px py else t } := by
            show e.on_canvas_drag px py = _
            unfold FlamingEngine.on_canvas_drag
            rw [hs]
          rw [hid]
          refine ⟨?_, ?_, ?_⟩
          · intro j hj
            have hj' : e.selected = some j := hj
            have := hsel j hj'
            show (e.sprites.map fun t =>
              if t.id = i then t.update_drag px py else t).any
                (fun s => s.id == j) = true
            rw [any_id_map e.sprites _ (updateDragAt_id px py i) j]
            exact this
          · show ((e.sprites.map fun t =>
              if t.id = i then t.update_drag px py else t).map
                (fun s => s.id)).Nodup
            rw [map_ids_eq e.sprites _ (updateDragAt_id px py i)]
            exact hnd
          · intro t ht
            rcases List.mem_map.mp ht with ⟨u, hu, rfl⟩
            show ((fun t =>
              if t.id = i then t.update_drag px py else t) u).id < e.nextId
            rw [updateDragAt_id px py i u]
            exact hlt u hu
  | release =>
      cases hs : e.selected with
      | none =>
          have hid : step e .release = e := by
            show e.on_canvas_release = e
            unfold FlamingEngine.on_canvas_release
            rw [hs]
          rw [hid]
          exact ⟨hsel, hnd, hlt⟩
      | some i =>
          have hid : step e .release =
              { e with sprites := e.sprites.map fun t =>
                  if t.id = i then t.end_drag else t } := by
            show e.on_canvas_release = _
            unfold FlamingEngine.on_canvas_release
            rw [hs]
          rw [hid]
          refine ⟨?_, ?_, ?_⟩
          · intro j hj
            have hj' : e.selected = some j := hj
            have := hsel j hj'
            show (e.sprites.map fun t =>
              if t.id = i then t.end_drag else t).any
                (fun s => s.id == j) = true
            rw [any_id_map e.sprites _ (endDragAt_id i) j]
            exact this
          · show ((e.sprites.map fun t =>
              if t.id = i then t.end_drag else t).map
                (fun s => s.id)).Nodup
            rw [map_ids_eq e.sprites _ (endDragAt_id i)]
            exact hnd
          · intro t ht
            rcases List.mem_map.mp ht with ⟨u, hu, rfl⟩
            show ((fun t => if t.id = i then t.end_drag else t) u).id < e.nextId
            rw [endDragAt_id i u]
            exact hlt u hu

theorem runOps_preserves_inv (e : FlamingEngine) (ops : List Op)
    (h : EngineInv e) : EngineInv (runOps e ops) := by
  induction ops generalizing e with
  | nil => exact h
  | cons op rest ih => exact ih (step e op) (step_preserves_inv e op h)

theorem engineInit_inv : EngineInv engineInit := by
  refine ⟨?_, ?_, ?_⟩
  · intro i hi
    exact nomatch hi
  · decide
  · decide

/-- Under the invariant, a remove-selected command always leaves the
selection empty: either it removes the (live) selected sprite and clears
the selection, or nothing was selected to begin with. -/
theorem remove_selected_clears (e : FlamingEngine) (h : EngineInv e) :
    (step e .removeSelected).selected = none := by
  cases hres : e.resolveSelected with
  | none =>
      have hid : step e .removeSelected = e := by
        show e.remove_sprite e.resolveSelected = e
        rw [hres]
        rfl
      rw [hid]
      cases hsel : e.selected with
      | none => rfl
      | some i =>
          exfalso
          have hhas := h.1 i hsel
          have hfind : (e.sprites.find? (fun s => s.id == i)).isSome := by
            rw [List.find?_isSome]
            have := List.any_eq_true.mp hhas
            exact this
          rw [← resolveSelected_of_selected e i hsel, hres] at hfind
          exact nomatch hfind
  | some sp =>
      rw [remove_step_of_some e sp hres]
      have hmem : sp ∈ e.sprites := by
        cases hsel : e.selected with
        | none =>
            exfalso
            rw [resolveSelected_of_none e hsel] at hres
            exact nomatch hres
        | some i =>
            rw [resolveSelected_of_selected e i hsel] at hres
            exact List.mem_of_find?_eq_some hres
      have hlive : e.hasId sp.id = true := by
        show e.sprites.any (fun s => s.id == sp.id) = true
        rw [List.any_eq_true]
        exact ⟨sp, hmem, by simp⟩
      rw [remove_sprite_of_live e sp hlive]

/-- C5: after any sequence of user operations from the initial engine, the
selection is empty or names a live sprite (never dangling), and a
remove-selected command immediately after any sequence always leaves
nothing selected. -/
theorem selection_never_dangles (ops : List Op) :
    (∀ i, (runOps engineInit ops).selected = some i →
      ∃ t ∈ (runOps engineInit ops).sprites, t.id = i) ∧
    (runOps engineInit (ops ++ [Op.removeSelected])).selected = none := by
  have hinv := runOps_preserves_inv engineInit ops engineInit_inv
  constructor
  · intro i hi
    have hhas := hinv.1 i hi
    have := List.any_eq_true.mp hhas
    rcases this with ⟨t, ht, hbeq⟩
    exact ⟨t, ht, by simpa using hbeq⟩
  · have hsplit : runOps engineInit (ops ++ [Op.removeSelected]) =
        step (runOps engineInit ops) Op.removeSelected := by
      unfold runOps
      rw [List.foldl_append]
      rfl
    rw [hsplit]
    exact remove_selected_clears (runOps engineInit ops) hinv

/-- Witness for C5: after selecting the test sprite, the selection indeed
names a live sprite. -/
theorem selection_never_dangles_witness :
    ∃ t ∈ (runOps engineInit [Op.select 0]).sprites, t.id = 0 :=
  (selection_never_dangles [Op.select 0]).1 0 (by decide)

/-! ### Claim C8: identity freshness -/

theorem step_nextId_le (e : FlamingEngine) (op : Op) :
    e.nextId ≤ (step e op).nextId := by
  cases op with
  | create n x y => exact Nat.le_succ _
  | duplicateSelected =>
      show e.nextId ≤ (e.duplicate_sprite e.resolveSelected).nextId
      unfold FlamingEngine.duplicate_sprite
      cases e.resolveSelected with
      | none => exact Nat.le_refl _
      | some sp => exact Nat.le_succ _
  | removeSelected =>
      show e.nextId ≤ (e.remove_sprite e.resolveSelected).nextId
      unfold FlamingEngine.remove_sprite
      cases e.resolveSelected with
      | none => exact Nat.le_refl _
      | some sp =>
          show e.nextId ≤ (if e.hasId sp.id = true then
            { e with sprites := removeId e.sprites sp.id, selected := none }
            else e).nextId
          by_cases hl : e.hasId sp.id = true
          · rw [if_pos hl]
          · rw [if_neg hl]
  | select i => exact Nat.le_refl _
  | click px py =>
      show e.nextId ≤ (e.on_canvas_click px py).nextId
      unfold FlamingEngine.on_canvas_click
      cases hit_test e.sprites px py with
      | none => exact Nat.le_refl _
      | some sp => exact Nat.le_refl _
  | drag px py =>
      show e.nextId ≤ (e.on_canvas_drag px py).nextId
      unfold FlamingEngine.on_canvas_drag
      cases e.selected with
      | none => exact Nat.le_refl _
      | some i => exact Nat.le_refl _
  | release =>
      show e.nextId ≤ e.on_canvas_release.nextId
      unfold FlamingEngine.on_canvas_release
      cases e.selected with
      | none => exact Nat.le_refl _
      | some i => exact Nat.le_refl _

theorem allocIds_lower_bound (ops : List Op) :
    ∀ (e : FlamingEngine) (i : Nat), i ∈ allocIds e ops → e.nextId ≤ i := by
  induction ops with
  | nil =>
      intro e i h
      exact absurd h (List.not_mem_nil i)
  | cons op rest ih =>
      intro e i h
      unfold allocIds at h
      rcases List.mem_append.mp h with h1 | h2
      · cases op with
        | create n x y =>
            have : i = e.nextId := List.mem_singleton.mp h1
            exact this ▸ Nat.le_refl _
        | duplicateSelected =>
            cases hres : e.resolveSelected with
            | none =>
                rw [hres] at h1
                exact absurd h1 (List.not_mem_nil i)
            | some sp =>
                rw [hres] at h1
                have : i = e.nextId := List.mem_singleton.mp h1
                exact this ▸ Nat.le_refl _
        | removeSelected => exact absurd h1 (List.not_mem_nil i)
        | select j => exact absurd h1 (List.not_mem_nil i)
        | click px py => exact absurd h1 (List.not_mem_nil i)
        | drag px py => exact absurd h1 (List.not_mem_nil i)
        | release => exact absurd h1 (List.not_mem_nil i)
      · exact Nat.le_trans (step_nextId_le e op) (ih (step e op) i h2)

theorem allocIds_nodup (ops : List Op) :
    ∀ e : FlamingEngine, (allocIds e ops).Nodup := by
  induction ops with
  | nil =>
      intro e
      exact List.nodup_nil
  | cons op rest ih =>
      intro e
      unfold allocIds
      cases op with
      | create n x y =>
          refine List.Nodup.append (List.nodup_singleton _) (ih _) ?_
          intro a ha hb
          have ha' : a = e.nextId := List.mem_singleton.mp ha
          have hlb := allocIds_lower_bound rest (step e (.create n x y)) a hb
          rw [ha'] at hlb
          exact Nat.not_succ_le_self e.nextId hlb
      | duplicateSelected =>
          cases hres : e.resolveSelected with
          | none => exact ih _
          | some sp =>
              show ([e.nextId] ++ allocIds (step e Op.duplicateSelected) rest).Nodup
              refine List.Nodup.append (List.nodup_singleton _) (ih _) ?_
              intro a ha hb
              have ha' : a = e.nextId := List.mem_singleton.mp ha
              have hlb := allocIds_lower_bound rest (step e .duplicateSelected) a hb
              rw [duplicate_step_of_some e sp hres] at hlb
              rw [ha'] at hlb
              exact Nat.not_succ_le_self e.nextId hlb
      | removeSelected => exact ih _
      | select j => exact ih _
      | click px py => exact ih _
      | drag px py => exact ih _
      | release => exact ih _

/-- C8: after any sequence of user operations from the initial engine, live
sprites carry pairwise distinct identities, and the identifiers minted by
the allocation events of the sequence are themselves pairwise distinct — so
an identifier removed from the scene is never minted again for a later
sprite. (A sprite's id field is set at construction and no operation ever
rewrites it.) -/
theorem live_ids_distinct_and_never_reused (ops : List Op) :
    ((runOps engineInit ops).sprites.map (fun s => s.id)).Nodup ∧
    (allocIds engineInit ops).Nodup :=
  ⟨(runOps_preserves_inv engineInit ops engineInit_inv).2.1,
   allocIds_nodup ops engineInit⟩
